import Mathlib

/-
Shallow embedding of the odin-todo-list core model:
  src/model/Priorities.js, src/model/Todo.js, src/model/Project.js,
  src/model/ProjectManager.js, src/storage/Storage.js.

Modelling conventions:
  * `crypto.randomUUID()` produces opaque unique strings; ids are modelled as an
    abstract type (`Nat`), and each creating operation takes the generated id as
    an explicit parameter (the nondeterministic UUID supply).
  * `Date` values and their ISO-8601 JSON encoding are modelled as an abstract
    type (`Nat`); `new Date(v)` on a date value and the JSON round-trip
    (Date -> ISO string -> Date) are identities at this abstraction.
  * `localStorage` under the single key is an `Option StorageBlob`;
    `Storage.load()` returning `null` for missing or corrupt data is `none`.
  * JavaScript `x ?? y` on fields that are either absent (`undefined`/`null`)
    or present is modelled with `Option`; `x || y` on object-or-null values is
    `jsOr`; truthiness of a Date-or-null is `Option.isSome`.
-/

namespace TodoApp

/- Priorities.js : enum-like string constants. -/
def Priorities.URGENT : String := "Urgent"
def Priorities.IMPORTANT : String := "Important"
def Priorities.LOW : String := "Low"

/-- Opaque unique identifiers (crypto.randomUUID values). -/
abbrev Id := Nat

/-- Abstract calendar-date values (JS Date objects / ISO strings). -/
abbrev DateVal := Nat

/-- Model of `val ? new Date(val) : null` applied to a date-or-null value:
Date construction is the identity at our abstraction, null stays null. -/
def toDateOrNull : Option DateVal → Option DateVal
  | some d => some d
  | none => none

/-- Model of `x || y` on object-or-null values (objects are truthy). -/
def jsOr {α : Type} (a b : Option α) : Option α :=
  match a with
  | some x => some x
  | none => b

/-- Model of the blank test `!s || s.trim() === ""` : an empty string is falsy,
and a string trims to empty exactly when all of its characters are whitespace. -/
def isBlank (s : String) : Bool :=
  s.data.all Char.isWhitespace

/-- Todo.js title coercion: `if (!title || title.trim() === "") title = "Untitled Todo"`. -/
def coerceTitle (title : String) : String :=
  if isBlank title then "Untitled Todo" else title

/-- Project.js name coercion: `if (!name || name.trim() === "") name = "Untitled Project"`. -/
def coerceName (name : String) : String :=
  if isBlank name then "Untitled Project" else name

/-- Todo.js : the seven persisted/observable fields of a Todo. -/
structure Todo where
  id : Id
  title : String
  description : String
  dueDate : Option DateVal
  priority : String
  completed : Bool
  expanded : Bool
deriving Repr, DecidableEq

/-- Todo constructor: fresh generated id `g`, coerced title, raw description,
`dueDate ? new Date(dueDate) : null`, raw priority, completed and expanded false. -/
def Todo.create (g : Id) (title description : String) (dueDate : Option DateVal)
    (priority : String) : Todo :=
  { id := g
    title := coerceTitle title
    description := description
    dueDate := toDateOrNull dueDate
    priority := priority
    completed := false
    expanded := false }

/-- `set title(val)` : blank input coerced to the placeholder. -/
def Todo.setTitle (t : Todo) (val : String) : Todo :=
  { t with title := coerceTitle val }

/-- `set description(val)` : stored as given (empty allowed). -/
def Todo.setDescription (t : Todo) (val : String) : Todo :=
  { t with description := val }

/-- `set dueDate(val)` : `val ? new Date(val) : null`. -/
def Todo.setDueDate (t : Todo) (val : Option DateVal) : Todo :=
  { t with dueDate := toDateOrNull val }

/-- `set priority(val)` : stored as given. -/
def Todo.setPriority (t : Todo) (val : String) : Todo :=
  { t with priority := val }

/-- `set id(val)` : stored as given. -/
def Todo.setIdField (t : Todo) (val : Id) : Todo :=
  { t with id := val }

/-- `set completed(val)` : stored as given. -/
def Todo.setCompleted (t : Todo) (val : Bool) : Todo :=
  { t with completed := val }

/-- `set expanded(val)` : stored as given. -/
def Todo.setExpanded (t : Todo) (val : Bool) : Todo :=
  { t with expanded := val }

/-- `toggleCompleted()` : flips the boolean. -/
def Todo.toggleCompleted (t : Todo) : Todo :=
  { t with completed := !t.completed }

/-- `toggleExpanded()` : flips the boolean. -/
def Todo.toggleExpanded (t : Todo) : Todo :=
  { t with expanded := !t.expanded }

/-- Argument to `updateData({ title, description, dueDate, priority })`.
`none` in an outer position means the field is absent (`undefined`) in the patch.
For `dueDate`, `some none` is an explicit `null` (cleared), `some (some d)` a date. -/
structure UpdatePatch where
  title : Option String := none
  description : Option String := none
  dueDate : Option (Option DateVal) := none
  priority : Option String := none
deriving Repr, DecidableEq

/-- `updateData(patch)` : each field is applied through its setter only when it is
not `undefined` in the patch. -/
def Todo.updateData (t : Todo) (p : UpdatePatch) : Todo :=
  let t := match p.title with
    | some v => t.setTitle v
    | none => t
  let t := match p.description with
    | some v => t.setDescription v
    | none => t
  let t := match p.dueDate with
    | some v => t.setDueDate v
    | none => t
  match p.priority with
  | some v => t.setPriority v
  | none => t

/-- Argument to the `info` bulk setter. `none` means the field is nullish
(`undefined`/`null`) in the assigned object, so `?? ` keeps the current value.
For `dueDate` the source tests truthiness, so nullish likewise keeps the
current value (a date value is truthy). -/
structure InfoPatch where
  id : Option Id := none
  title : Option String := none
  description : Option String := none
  dueDate : Option DateVal := none
  priority : Option String := none
  completed : Option Bool := none
  expanded : Option Bool := none
deriving Repr, DecidableEq

/-- `set info({...})` : every field is nullish-coalesced onto the current value.
Note there is no blank-title coercion on this path: `this._title = title ?? this._title`. -/
def Todo.setInfo (t : Todo) (p : InfoPatch) : Todo :=
  { id := p.id.getD t.id
    title := p.title.getD t.title
    description := p.description.getD t.description
    dueDate := match p.dueDate with
      | some d => some d
      | none => t.dueDate
    priority := p.priority.getD t.priority
    completed := p.completed.getD t.completed
    expanded := p.expanded.getD t.expanded }

/-- Project.js : id, coerced name, ordered todo collection. -/
structure Project where
  id : Id
  name : String
  todos : List Todo
deriving Repr, DecidableEq

/-- Project constructor: fresh generated id `g`, coerced name, empty todos. -/
def Project.make (g : Id) (name : String) : Project :=
  { id := g, name := coerceName name, todos := [] }

/-- `createTodo(title, description, dueDate, priority)` : constructs a Todo with a
fresh generated id `g`, appends it, returns it. -/
def Project.createTodo (pr : Project) (g : Id) (title description : String)
    (dueDate : Option DateVal) (priority : String) : Project × Todo :=
  let todo := Todo.create g title description dueDate priority
  ({ pr with todos := pr.todos ++ [todo] }, todo)

/-- `deleteTodoById(id)` : filters out todos with the given id. -/
def Project.deleteTodoById (pr : Project) (tid : Id) : Project :=
  { pr with todos := pr.todos.filter (fun t => t.id != tid) }

/-- `deleteAllTodos()` : clears the collection. -/
def Project.deleteAllTodos (pr : Project) : Project :=
  { pr with todos := [] }

/-- `getTodoById(id)` : first match or null. -/
def Project.getTodoById (pr : Project) (tid : Id) : Option Todo :=
  pr.todos.find? (fun t => t.id == tid)

/-- `setId(id)` : unconditional assignment (used by loadFromStorage to restore ids). -/
def Project.setId (pr : Project) (i : Id) : Project :=
  { pr with id := i }

/-- `setName(name)` : blank input coerced to the placeholder. -/
def Project.setName (pr : Project) (name : String) : Project :=
  { pr with name := coerceName name }

/-- Persisted shape of one todo inside the storage blob (JSON record). -/
structure TodoRecord where
  id : Id
  title : String
  description : String
  dueDate : Option DateVal
  priority : String
  completed : Bool
  expanded : Bool
deriving Repr, DecidableEq

/-- Persisted shape of one project inside the storage blob. -/
structure ProjectRecord where
  id : Id
  name : String
  todos : List TodoRecord
deriving Repr, DecidableEq

/-- The single persisted blob: `{ defaultProjectId, projects }`. -/
structure StorageBlob where
  defaultProjectId : Option Id
  projects : List ProjectRecord
deriving Repr, DecidableEq

/-- ProjectManager.js : project collection plus the two nullable selection roles. -/
structure ProjectManager where
  projects : List Project
  activeProject : Option Project
  defaultProject : Option Project
deriving Repr, DecidableEq

/-- The constructor state: empty collection, both roles null. -/
def emptyManager : ProjectManager :=
  { projects := [], activeProject := none, defaultProject := none }

/-- `getProjectById(id)` : `this.projects.find((p) => p.id === id) || null`. -/
def ProjectManager.getProjectById (m : ProjectManager) (pid : Id) : Option Project :=
  m.projects.find? (fun p => p.id == pid)

/-- `getActiveProject()`. -/
def ProjectManager.getActiveProject (m : ProjectManager) : Option Project :=
  m.activeProject

/-- `getDefaultProject()`. -/
def ProjectManager.getDefaultProject (m : ProjectManager) : Option Project :=
  m.defaultProject

/-- Model of `this.x?.id === id` (optional chaining: null gives false). -/
def optIdEq (o : Option Project) (pid : Id) : Bool :=
  match o with
  | some p => p.id == pid
  | none => false

/-- `createProject(name)` : construct with generated id `g`, push, and set each
selection role to the new project only when that role is currently null. -/
def ProjectManager.createProject (m : ProjectManager) (g : Id) (name : String) :
    ProjectManager × Project :=
  let project := Project.make g name
  let projects := m.projects ++ [project]
  let active := match m.activeProject with
    | none => some project
    | some p => some p
  let dflt := match m.defaultProject with
    | none => some project
    | some p => some p
  ({ projects := projects, activeProject := active, defaultProject := dflt }, project)

/-- `deleteProjectById(id)` : filter the collection; each role whose current
project has the deleted id is reassigned to `projects[0] ?? null` of the new
collection, independently of the other. -/
def ProjectManager.deleteProjectById (m : ProjectManager) (pid : Id) : ProjectManager :=
  let projects := m.projects.filter (fun p => p.id != pid)
  let active := if optIdEq m.activeProject pid then projects.head? else m.activeProject
  let dflt := if optIdEq m.defaultProject pid then projects.head? else m.defaultProject
  { projects := projects, activeProject := active, defaultProject := dflt }

/-- `deleteAllProjects()` : clears the collection and nulls the active project.
The source does not touch `defaultProject` here. -/
def ProjectManager.deleteAllProjects (m : ProjectManager) : ProjectManager :=
  { m with projects := [], activeProject := none }

/-- `setActiveProject(id)` : `getProjectById(id) || null`. -/
def ProjectManager.setActiveProject (m : ProjectManager) (pid : Id) : ProjectManager :=
  { m with activeProject := m.getProjectById pid }

/-- `setDefaultProject(id)` : toggle — if the current default has this id, clear;
otherwise `getProjectById(id)` (or null when absent). -/
def ProjectManager.setDefaultProject (m : ProjectManager) (pid : Id) : ProjectManager :=
  { m with defaultProject := if optIdEq m.defaultProject pid then none else m.getProjectById pid }

/-- Serialization of one todo in `saveToStorage()`. -/
def Todo.serialize (t : Todo) : TodoRecord :=
  { id := t.id
    title := t.title
    description := t.description
    dueDate := t.dueDate
    priority := t.priority
    completed := t.completed
    expanded := t.expanded }

/-- Serialization of one project in `saveToStorage()`. -/
def Project.serialize (p : Project) : ProjectRecord :=
  { id := p.id, name := p.name, todos := p.todos.map Todo.serialize }

/-- The blob built by `saveToStorage()` :
`{ defaultProjectId: this.defaultProject?.getId() ?? null, projects: ... }`. -/
def ProjectManager.serialize (m : ProjectManager) : StorageBlob :=
  { defaultProjectId := m.defaultProject.map Project.id
    projects := m.projects.map Project.serialize }

/-- Per-record todo rebuild in `loadFromStorage()` : the todo is created through
the project factory (fresh generated id `g`, persisted title/description/dueDate/
priority as constructor arguments), then id, completed and expanded are
force-restored from the record. -/
def Todo.restore (g : Id) (t : TodoRecord) : Todo :=
  let todo := Todo.create g t.title t.description t.dueDate t.priority
  { todo with id := t.id, completed := t.completed, expanded := t.expanded }

/-- Per-record project rebuild in `loadFromStorage()` : `new Project(p.name)`,
`project.setId(p.id)`, then each persisted todo is rebuilt and appended in order.
The generated ids are immediately overwritten, so a dummy supply `g` is used. -/
def Project.restore (g : Id) (p : ProjectRecord) : Project :=
  let project := Project.make g p.name
  let project := project.setId p.id
  { project with todos := p.todos.map (Todo.restore g) }

/-- The manager state produced by `loadFromStorage()` from a decoded blob:
rebuilt projects, then `defaultProject = getProjectById(defaultProjectId) || projects[0] || null`
over the new collection, and `activeProject = defaultProject`. -/
def loadData (data : StorageBlob) : ProjectManager :=
  let projects := data.projects.map (Project.restore 0)
  let dflt := jsOr
    (match data.defaultProjectId with
     | some i => projects.find? (fun p => p.id == i)
     | none => none)
    projects.head?
  { projects := projects, activeProject := dflt, defaultProject := dflt }

/-- Application state: the manager plus the persisted blob under the single
storage key (`none` models nothing stored / corrupt data). -/
structure AppState where
  manager : ProjectManager
  storage : Option StorageBlob
deriving Repr, DecidableEq

/-- `saveToStorage()` : serializes the full manager state and overwrites the blob. -/
def AppState.saveToStorage (s : AppState) : AppState :=
  { s with storage := some s.manager.serialize }

/-- `loadFromStorage()` : `Storage.load()` returning null leaves the manager
unchanged; otherwise the blob is decoded into a fresh entity graph. -/
def AppState.loadFromStorage (s : AppState) : AppState :=
  match s.storage with
  | none => s
  | some data => { s with manager := loadData data }

/-- Replace the first element matched by `hit` with its image under `f` (the
object returned by a find-by-id, mutated in place); no-op when absent. -/
def updateFirst {α : Type} (l : List α) (hit : α → Bool) (f : α → α) : List α :=
  match l with
  | [] => []
  | a :: rest =>
    if hit a then f a :: rest else a :: updateFirst rest hit f

/-- Replace the first project whose id matches `pid` (the object returned by
`getProjectById`, mutated in place by the controller); no-op when absent. -/
def updateProject (projects : List Project) (pid : Id) (f : Project → Project) :
    List Project :=
  updateFirst projects (fun p => p.id == pid) f

/-- Replace the first todo whose id matches `tid` (the object returned by
`getTodoById`, mutated in place by the controller); no-op when absent. -/
def updateTodoList (todos : List Todo) (tid : Id) (f : Todo → Todo) : List Todo :=
  updateFirst todos (fun t => t.id == tid) f

/-- Apply an in-place mutation to the first matching project, as the controller
callbacks do after `getProjectById`. -/
def ProjectManager.updateProjectIn (m : ProjectManager) (pid : Id) (f : Project → Project) :
    ProjectManager :=
  { m with projects := updateProject m.projects pid f }

/-- Apply an in-place mutation to the first matching todo of the first matching
project, as the controller callbacks do. -/
def ProjectManager.updateTodoIn (m : ProjectManager) (pid tid : Id) (f : Todo → Todo) :
    ProjectManager :=
  m.updateProjectIn pid (fun p => { p with todos := updateTodoList p.todos tid f })

/-- The operations the application performs on the core (controller callbacks
plus startup load); generated ids are explicit parameters. -/
inductive Op where
  | createProject (g : Id) (name : String)
  | deleteProjectById (pid : Id)
  | deleteAllProjects
  | setActiveProject (pid : Id)
  | setDefaultProject (pid : Id)
  | setProjectName (pid : Id) (name : String)
  | createTodo (pid : Id) (g : Id) (title description : String)
      (dueDate : Option DateVal) (priority : String)
  | deleteTodo (pid : Id) (tid : Id)
  | updateTodo (pid : Id) (tid : Id) (patch : UpdatePatch)
  | toggleCompleted (pid : Id) (tid : Id)
  | toggleExpanded (pid : Id) (tid : Id)
  | save
  | load
deriving Repr, DecidableEq

/-- One-step semantics of the operations on the application state. -/
def applyOp (s : AppState) : Op → AppState
  | .createProject g name =>
      { s with manager := (s.manager.createProject g name).1 }
  | .deleteProjectById pid =>
      { s with manager := s.manager.deleteProjectById pid }
  | .deleteAllProjects =>
      { s with manager := s.manager.deleteAllProjects }
  | .setActiveProject pid =>
      { s with manager := s.manager.setActiveProject pid }
  | .setDefaultProject pid =>
      { s with manager := s.manager.setDefaultProject pid }
  | .setProjectName pid name =>
      { s with manager := s.manager.updateProjectIn pid (fun p => p.setName name) }
  | .createTodo pid g title dsc due prio =>
      { s with manager := s.manager.updateProjectIn pid (fun p => (p.createTodo g title dsc due prio).1) }
  | .deleteTodo pid tid =>
      { s with manager := s.manager.updateProjectIn pid (fun p => p.deleteTodoById tid) }
  | .updateTodo pid tid patch =>
      { s with manager := s.manager.updateTodoIn pid tid (fun t => t.updateData patch) }
  | .toggleCompleted pid tid =>
      { s with manager := s.manager.updateTodoIn pid tid Todo.toggleCompleted }
  | .toggleExpanded pid tid =>
      { s with manager := s.manager.updateTodoIn pid tid Todo.toggleExpanded }
  | .save => s.saveToStorage
  | .load => s.loadFromStorage

/-- Run a sequence of operations. -/
def applyOps (s : AppState) (ops : List Op) : AppState :=
  ops.foldl applyOp s

/-- Initial application state: fresh manager, arbitrary initial storage content. -/
def initialApp (st : Option StorageBlob) : AppState :=
  { manager := emptyManager, storage := st }

/- Basic lemmas about the JS-helper functions. -/

lemma toDateOrNull_eq (v : Option DateVal) : toDateOrNull v = v := by
  cases v <;> rfl

lemma isBlank_coerceTitle (s : String) : isBlank (coerceTitle s) = false := by
  unfold coerceTitle
  by_cases h : isBlank s = true
  · rw [if_pos h]; decide
  · rw [if_neg h]; simpa using h

lemma isBlank_coerceName (s : String) : isBlank (coerceName s) = false := by
  unfold coerceName
  by_cases h : isBlank s = true
  · rw [if_pos h]; decide
  · rw [if_neg h]; simpa using h

lemma coerceTitle_fix {s : String} (h : isBlank s = false) : coerceTitle s = s := by
  simp [coerceTitle, h]

lemma coerceName_fix {s : String} (h : isBlank s = false) : coerceName s = s := by
  simp [coerceName, h]

lemma ne_empty_of_not_blank {s : String} (h : isBlank s = false) : s ≠ "" := by
  intro he
  subst he
  revert h
  decide

lemma head?_mem {α : Type} {l : List α} {a : α} (h : l.head? = some a) : a ∈ l := by
  cases l with
  | nil => cases h
  | cons b rest =>
    simp [List.head?] at h
    subst h
    exact List.mem_cons_self _ _

lemma find?_filter_ne (l : List Project) (pid : Id) :
    (l.filter (fun p => p.id != pid)).find? (fun p => p.id == pid) = none := by
  induction l with
  | nil => rfl
  | cons p rest ih =>
    by_cases h : p.id = pid
    · simp [List.filter_cons, h, ih]
    · simp [List.filter_cons, List.find?_cons, h, ih]

lemma updateFirst_pred {α : Type} {P : α → Prop} {l : List α} {hit : α → Bool}
    {f : α → α} (hf : ∀ a, P a → P (f a)) (hl : ∀ a ∈ l, P a) :
    ∀ a ∈ updateFirst l hit f, P a := by
  induction l with
  | nil => intro a ha; cases ha
  | cons b rest ih =>
    intro a ha
    rw [updateFirst] at ha
    by_cases h : hit b = true
    · rw [if_pos h] at ha
      rcases List.mem_cons.mp ha with rfl | ha'
      · exact hf b (hl b (List.mem_cons_self _ _))
      · exact hl a (List.mem_cons_of_mem _ ha')
    · rw [if_neg h] at ha
      rcases List.mem_cons.mp ha with rfl | ha'
      · exact hl a (List.mem_cons_self _ _)
      · exact ih (fun c hc => hl c (List.mem_cons_of_mem _ hc)) a ha'

lemma updateFirst_map {α β : Type} {l : List α} {hit : α → Bool} {f : α → α}
    {g : α → β} (hf : ∀ a, g (f a) = g a) : (updateFirst l hit f).map g = l.map g := by
  induction l with
  | nil => rfl
  | cons a rest ih =>
    rw [updateFirst]
    by_cases h : hit a = true
    · rw [if_pos h]; simp [hf]
    · rw [if_neg h]; simp [ih]

/- Wellformedness invariants maintained by the application's operations. -/

/-- A todo is wellformed when its title is not blank. -/
def TodoOk (t : Todo) : Prop :=
  isBlank t.title = false

/-- A project is wellformed when its name is not blank and its todos are wellformed. -/
def ProjectOk (p : Project) : Prop :=
  isBlank p.name = false ∧ ∀ t ∈ p.todos, TodoOk t

/-- A manager is wellformed when all its projects are wellformed. -/
def ManagerOk (m : ProjectManager) : Prop :=
  ∀ p ∈ m.projects, ProjectOk p

lemma todoOk_create (g : Id) (title dsc : String) (due : Option DateVal) (prio : String) :
    TodoOk (Todo.create g title dsc due prio) :=
  isBlank_coerceTitle title

lemma todoOk_updateData {t : Todo} (p : UpdatePatch) (h : TodoOk t) :
    TodoOk (t.updateData p) := by
  obtain ⟨pt, pd, pdd, pp⟩ := p
  cases pt <;> cases pd <;> cases pdd <;> cases pp <;>
    simp_all [TodoOk, Todo.updateData, Todo.setTitle, Todo.setDescription,
      Todo.setDueDate, Todo.setPriority, isBlank_coerceTitle]

lemma projectOk_make (g : Id) (name : String) : ProjectOk (Project.make g name) :=
  ⟨isBlank_coerceName name, fun t ht => absurd ht (List.not_mem_nil t)⟩

/- Characterization of the load-time rebuild. -/

lemma todo_restore_eq (g : Id) (t : TodoRecord) :
    Todo.restore g t =
      { id := t.id, title := coerceTitle t.title, description := t.description,
        dueDate := t.dueDate, priority := t.priority, completed := t.completed,
        expanded := t.expanded } := by
  simp [Todo.restore, Todo.create, toDateOrNull_eq]

lemma project_restore_eq (g : Id) (p : ProjectRecord) :
    Project.restore g p =
      { id := p.id, name := coerceName p.name, todos := p.todos.map (Todo.restore g) } :=
  rfl

lemma projectOk_restore (g : Id) (p : ProjectRecord) : ProjectOk (Project.restore g p) := by
  constructor
  · rw [project_restore_eq]
    exact isBlank_coerceName p.name
  · intro t ht
    rw [project_restore_eq] at ht
    obtain ⟨rec, _, rfl⟩ := List.mem_map.mp ht
    rw [todo_restore_eq]
    exact isBlank_coerceTitle rec.title

lemma managerOk_loadData (data : StorageBlob) : ManagerOk (loadData data) := by
  intro p hp
  obtain ⟨rec, _, rfl⟩ := List.mem_map.mp hp
  exact projectOk_restore 0 rec

/- Serialization round trip on wellformed states. -/

lemma todo_roundtrip {t : Todo} (h : TodoOk t) : Todo.restore 0 (Todo.serialize t) = t := by
  rw [todo_restore_eq]
  simp [Todo.serialize, coerceTitle_fix h]

lemma project_roundtrip {p : Project} (h : ProjectOk p) :
    Project.restore 0 (Project.serialize p) = p := by
  obtain ⟨hn, ht⟩ := h
  rw [project_restore_eq]
  simp only [Project.serialize, List.map_map]
  have : p.todos.map (fun t => Todo.restore 0 (Todo.serialize t)) = p.todos := by
    rw [List.map_congr_left (fun t htm => todo_roundtrip (ht t htm))]
    exact List.map_id p.todos
  simp [coerceName_fix hn, Function.comp_def, this]

lemma manager_roundtrip {m : ProjectManager} (h : ManagerOk m) :
    (loadData m.serialize).projects = m.projects := by
  simp only [loadData, ProjectManager.serialize, List.map_map, Function.comp_def]
  rw [List.map_congr_left (fun p hp => project_roundtrip (h p hp))]
  exact List.map_id m.projects

/- Preservation of wellformedness by every operation. -/

lemma managerOk_applyOp (s : AppState) (op : Op) (h : ManagerOk s.manager) :
    ManagerOk (applyOp s op).manager := by
  cases op with
  | createProject g name =>
    intro p hp
    simp only [applyOp, ProjectManager.createProject] at hp
    rcases List.mem_append.mp hp with hp' | hp'
    · exact h p hp'
    · rw [List.mem_singleton.mp hp']
      exact projectOk_make g name
  | deleteProjectById pid =>
    intro p hp
    exact h p (List.mem_of_mem_filter hp)
  | deleteAllProjects =>
    intro p hp
    cases hp
  | setActiveProject pid => exact h
  | setDefaultProject pid => exact h
  | setProjectName pid name =>
    exact updateFirst_pred (fun p hp => ⟨isBlank_coerceName name, hp.2⟩) h
  | createTodo pid g title dsc due prio =>
    refine updateFirst_pred (fun p hp => ⟨hp.1, fun t ht => ?_⟩) h
    simp only [Project.createTodo] at ht
    rcases List.mem_append.mp ht with ht' | ht'
    · exact hp.2 t ht'
    · rw [List.mem_singleton.mp ht']
      exact todoOk_create g title dsc due prio
  | deleteTodo pid tid =>
    exact updateFirst_pred
      (fun p hp => ⟨hp.1, fun t ht => hp.2 t (List.mem_of_mem_filter ht)⟩) h
  | updateTodo pid tid patch =>
    exact updateFirst_pred
      (fun p hp => ⟨hp.1, updateFirst_pred (fun t htk => todoOk_updateData patch htk) hp.2⟩) h
  | toggleCompleted pid tid =>
    exact updateFirst_pred
      (fun p hp => ⟨hp.1, updateFirst_pred (fun t htk => htk) hp.2⟩) h
  | toggleExpanded pid tid =>
    exact updateFirst_pred
      (fun p hp => ⟨hp.1, updateFirst_pred (fun t htk => htk) hp.2⟩) h
  | save => exact h
  | load =>
    rcases hst : s.storage with _ | data
    · simpa [applyOp, AppState.loadFromStorage, hst] using h
    · simpa [applyOp, AppState.loadFromStorage, hst] using managerOk_loadData data

lemma managerOk_empty : ManagerOk emptyManager :=
  fun p hp => absurd hp (List.not_mem_nil p)

lemma managerOk_applyOps (ops : List Op) :
    ∀ s : AppState, ManagerOk s.manager → ManagerOk (applyOps s ops).manager := by
  induction ops with
  | nil => exact fun s h => h
  | cons op rest ih => exact fun s h => ih _ (managerOk_applyOp s op h)

/-- C10: saveToStorage() does not modify the manager's in-memory state — the
projects collection (with every project's fields and todos), activeProject and
defaultProject are exactly as they were before the call. -/
theorem C10_save_frame (s : AppState) :
    (s.saveToStorage).manager = s.manager ∧
    (s.saveToStorage).manager.projects = s.manager.projects ∧
    (s.saveToStorage).manager.activeProject = s.manager.activeProject ∧
    (s.saveToStorage).manager.defaultProject = s.manager.defaultProject :=
  ⟨rfl, rfl, rfl, rfl⟩

/-- Save the given manager state, then load the persisted blob into a fresh
(empty) manager, as the round-trip law prescribes. -/
def reloaded (m : ProjectManager) : ProjectManager :=
  (AppState.loadFromStorage
    { manager := emptyManager,
      storage := (AppState.saveToStorage { manager := m, storage := none }).storage }).manager

/-- C1: for every manager state reachable by the application's operations,
saveToStorage() followed by loadFromStorage() on a fresh manager reproduces the
projects and todos exactly (same ids, names, titles, descriptions, due dates,
priorities, completed and expanded flags, in the same order), and sets both
activeProject and defaultProject to the project whose id equals the persisted
defaultProjectId, falling back to the first project, falling back to null. -/
theorem C1_roundtrip (st : Option StorageBlob) (ops : List Op) :
    let m := (applyOps (initialApp st) ops).manager
    (reloaded m).projects = m.projects ∧
    ((reloaded m).defaultProject = jsOr
      (match m.serialize.defaultProjectId with
       | some i => (reloaded m).getProjectById i
       | none => none)
      (reloaded m).projects.head?) ∧
    (reloaded m).activeProject = (reloaded m).defaultProject := by
  intro m
  have hOk : ManagerOk m := managerOk_applyOps ops (initialApp st) managerOk_empty
  exact ⟨manager_roundtrip hOk, rfl, rfl⟩

/- Machinery for the selection-role membership invariant. -/

/-- When non-null, the active project belongs to the collection. -/
def ActiveOk (m : ProjectManager) : Prop :=
  ∀ p, m.activeProject = some p → p ∈ m.projects

/-- When non-null, the default project belongs to the collection. -/
def DefaultOk (m : ProjectManager) : Prop :=
  ∀ p, m.defaultProject = some p → p ∈ m.projects

/-- The ProjectManager operations enumerated by the selection-invariant claim. -/
def selOp : Op → Bool
  | .createProject _ _ => true
  | .deleteProjectById _ => true
  | .deleteAllProjects => true
  | .setActiveProject _ => true
  | .setDefaultProject _ => true
  | .load => true
  | _ => false

lemma activeOk_empty : ActiveOk emptyManager :=
  fun _ hp => Option.noConfusion hp

lemma defaultOk_empty : DefaultOk emptyManager :=
  fun _ hp => Option.noConfusion hp

lemma jsOr_lookup_mem {l : List Project} {oid : Option Id} {p : Project}
    (hp : jsOr (match oid with
      | some i => l.find? (fun q => q.id == i)
      | none => none) l.head? = some p) : p ∈ l := by
  rcases oid with _ | i
  · simp only [jsOr] at hp
    exact head?_mem hp
  · have hp' : jsOr (l.find? (fun q => q.id == i)) l.head? = some p := hp
    rcases hfind : l.find? (fun q => q.id == i) with _ | q
    · rw [hfind] at hp'
      simp only [jsOr] at hp'
      exact head?_mem hp'
    · rw [hfind] at hp'
      simp only [jsOr] at hp'
      obtain rfl := Option.some_inj.mp hp'
      exact List.mem_of_find?_eq_some hfind

lemma activeOk_step {s : AppState} {op : Op} (hop : selOp op = true)
    (h : ActiveOk s.manager) : ActiveOk (applyOp s op).manager := by
  cases op with
  | createProject g name =>
    intro p hp
    simp only [applyOp, ProjectManager.createProject] at hp ⊢
    rcases hA : s.manager.activeProject with _ | q
    · rw [hA] at hp
      obtain rfl := Option.some_inj.mp hp
      exact List.mem_append_right _ (List.mem_cons_self _ _)
    · rw [hA] at hp
      obtain rfl := Option.some_inj.mp hp
      exact List.mem_append_left _ (h q hA)
  | deleteProjectById pid =>
    intro p hp
    simp only [applyOp, ProjectManager.deleteProjectById] at hp ⊢
    by_cases hc : optIdEq s.manager.activeProject pid = true
    · rw [if_pos hc] at hp
      exact head?_mem hp
    · rw [if_neg hc] at hp
      rw [hp] at hc
      simp only [optIdEq] at hc
      refine List.mem_filter.mpr ⟨h p hp, ?_⟩
      simp only [bne, Bool.not_eq_true'] at hc ⊢
      simp [hc]
  | deleteAllProjects =>
    intro p hp
    simp [applyOp, ProjectManager.deleteAllProjects] at hp
  | setActiveProject pid =>
    intro p hp
    simp only [applyOp, ProjectManager.setActiveProject, ProjectManager.getProjectById] at hp ⊢
    exact List.mem_of_find?_eq_some hp
  | setDefaultProject pid =>
    intro p hp
    exact h p hp
  | load =>
    intro p hp
    rcases hst : s.storage with _ | data
    · simp only [applyOp, AppState.loadFromStorage, hst] at hp ⊢
      exact h p hp
    · simp only [applyOp, AppState.loadFromStorage, hst, loadData] at hp ⊢
      exact jsOr_lookup_mem hp
  | setProjectName pid name => exact Bool.noConfusion hop
  | createTodo pid g title dsc due prio => exact Bool.noConfusion hop
  | deleteTodo pid tid => exact Bool.noConfusion hop
  | updateTodo pid tid patch => exact Bool.noConfusion hop
  | toggleCompleted pid tid => exact Bool.noConfusion hop
  | toggleExpanded pid tid => exact Bool.noConfusion hop
  | save => exact Bool.noConfusion hop

lemma defaultOk_step {s : AppState} {op : Op} (hop : selOp op = true)
    (hne : op ≠ Op.deleteAllProjects) (h : DefaultOk s.manager) :
    DefaultOk (applyOp s op).manager := by
  cases op with
  | createProject g name =>
    intro p hp
    simp only [applyOp, ProjectManager.createProject] at hp ⊢
    rcases hD : s.manager.defaultProject with _ | q
    · rw [hD] at hp
      obtain rfl := Option.some_inj.mp hp
      exact List.mem_append_right _ (List.mem_cons_self _ _)
    · rw [hD] at hp
      obtain rfl := Option.some_inj.mp hp
      exact List.mem_append_left _ (h q hD)
  | deleteProjectById pid =>
    intro p hp
    simp only [applyOp, ProjectManager.deleteProjectById] at hp ⊢
    by_cases hc : optIdEq s.manager.defaultProject pid = true
    · rw [if_pos hc] at hp
      exact head?_mem hp
    · rw [if_neg hc] at hp
      rw [hp] at hc
      simp only [optIdEq] at hc
      refine List.mem_filter.mpr ⟨h p hp, ?_⟩
      simp only [bne, Bool.not_eq_true'] at hc ⊢
      simp [hc]
  | deleteAllProjects => exact absurd rfl hne
  | setActiveProject pid =>
    intro p hp
    exact h p hp
  | setDefaultProject pid =>
    intro p hp
    simp only [applyOp, ProjectManager.setDefaultProject] at hp ⊢
    by_cases hc : optIdEq s.manager.defaultProject pid = true
    · rw [if_pos hc] at hp
      exact Option.noConfusion hp
    · rw [if_neg hc] at hp
      simp only [ProjectManager.getProjectById] at hp
      exact List.mem_of_find?_eq_some hp
  | load =>
    intro p hp
    rcases hst : s.storage with _ | data
    · simp only [applyOp, AppState.loadFromStorage, hst] at hp ⊢
      exact h p hp
    · simp only [applyOp, AppState.loadFromStorage, hst, loadData] at hp ⊢
      exact jsOr_lookup_mem hp
  | setProjectName pid name => exact Bool.noConfusion hop
  | createTodo pid g title dsc due prio => exact Bool.noConfusion hop
  | deleteTodo pid tid => exact Bool.noConfusion hop
  | updateTodo pid tid patch => exact Bool.noConfusion hop
  | toggleCompleted pid tid => exact Bool.noConfusion hop
  | toggleExpanded pid tid => exact Bool.noConfusion hop
  | save => exact Bool.noConfusion hop

lemma selInvariant_applyOps (ops : List Op) :
    ∀ s : AppState, ops.all selOp = true → ActiveOk s.manager →
      ActiveOk (applyOps s ops).manager ∧
      (Op.deleteAllProjects ∉ ops → DefaultOk s.manager →
        DefaultOk (applyOps s ops).manager) := by
  induction ops with
  | nil => exact fun s _ hA => ⟨hA, fun _ hD => hD⟩
  | cons op rest ih =>
    intro s hall hA
    rw [List.all_cons, Bool.and_eq_true] at hall
    have hA' := activeOk_step hall.1 hA
    refine ⟨(ih _ hall.2 hA').1, fun hnd hD => ?_⟩
    have hne : op ≠ Op.deleteAllProjects := fun he => hnd (he ▸ List.mem_cons_self _ _)
    have hD' := defaultOk_step hall.1 hne hD
    exact (ih _ hall.2 hA').2 (fun hm => hnd (List.mem_cons_of_mem _ hm)) hD'

/-- The run used by the C2 counterexample: one createProject, then deleteAllProjects. -/
def mgrC2 : ProjectManager :=
  (applyOps (initialApp (none)) [Op.createProject 1 "A", Op.deleteAllProjects]).manager

/-- C2 counterexample: after createProject("A") followed by deleteAllProjects()
— both operations named by the claim — defaultProject still holds the deleted
project while the collection is empty, violating the claimed membership
invariant for defaultProject. -/
theorem C2_cx_dangling_default :
    mgrC2.defaultProject = some (Project.make 1 "A") ∧
    Project.make 1 "A" ∉ mgrC2.projects := by
  exact ⟨rfl, by decide⟩

/-- C2 amended: over the claim's operations, activeProject always satisfies the
membership invariant; defaultProject satisfies it as long as deleteAllProjects
never occurs in the sequence — deleteAllProjects clears the collection and the
active role but leaves defaultProject unchanged, possibly dangling. -/
theorem C2_selection_invariant (st : Option StorageBlob) (ops : List Op)
    (hsel : ops.all selOp = true) :
    ActiveOk (applyOps (initialApp st) ops).manager ∧
    (Op.deleteAllProjects ∉ ops → DefaultOk (applyOps (initialApp st) ops).manager) := by
  have h := selInvariant_applyOps ops (initialApp st) hsel activeOk_empty
  exact ⟨h.1, fun hnd => h.2 hnd defaultOk_empty⟩

/-- Witness for C2 amended: a concrete create-then-delete run within the claimed
operations and without deleteAllProjects keeps both invariants. -/
theorem C2_selection_invariant_witness :
    (([Op.createProject 1 "A", Op.createProject 2 "B", Op.deleteProjectById 1]).all selOp
      = true) ∧
    (Op.deleteAllProjects ∉ [Op.createProject 1 "A", Op.createProject 2 "B",
      Op.deleteProjectById 1]) ∧
    ActiveOk (applyOps (initialApp (none))
      [Op.createProject 1 "A", Op.createProject 2 "B", Op.deleteProjectById 1]).manager ∧
    DefaultOk (applyOps (initialApp (none))
      [Op.createProject 1 "A", Op.createProject 2 "B", Op.deleteProjectById 1]).manager := by
  refine ⟨by decide, by decide, ?_, ?_⟩
  · exact (C2_selection_invariant (none) _ (by decide)).1
  · exact (C2_selection_invariant (none) _ (by decide)).2 (by decide)

lemma map_id_filter (l : List Project) (pid : Id) :
    (l.filter (fun p => p.id != pid)).map Project.id =
      (l.map Project.id).filter (fun i => i != pid) := by
  induction l with
  | nil => rfl
  | cons p rest ih =>
    by_cases h : (p.id != pid) = true
    · simp [List.filter_cons, h, ih]
    · simp [List.filter_cons, h, ih]

/-- C9: a rebuilt project's id is set during load to the persisted value
(overriding the generated one, exactly once), and no operation afterwards
changes the id of any existing project — creation appends its freshly generated
id, deletions only remove ids, and every other operation leaves the id list
unchanged. -/
theorem C9_project_id_stability :
    (∀ g p, (Project.restore g p).id = p.id) ∧
    (∀ data, (loadData data).projects.map Project.id =
      data.projects.map ProjectRecord.id) ∧
    (∀ (s : AppState) (g : Id) (name : String),
      (applyOp s (.createProject g name)).manager.projects.map Project.id =
        s.manager.projects.map Project.id ++ [g]) ∧
    (∀ (s : AppState) (pid : Id),
      (applyOp s (.deleteProjectById pid)).manager.projects.map Project.id =
        (s.manager.projects.map Project.id).filter (fun i => i != pid)) ∧
    (∀ s : AppState, (applyOp s .deleteAllProjects).manager.projects = []) ∧
    (∀ (s : AppState) (pid : Id),
      (applyOp s (.setActiveProject pid)).manager.projects = s.manager.projects) ∧
    (∀ (s : AppState) (pid : Id),
      (applyOp s (.setDefaultProject pid)).manager.projects = s.manager.projects) ∧
    (∀ s : AppState, (applyOp s .save).manager.projects = s.manager.projects) ∧
    (∀ (s : AppState) (pid : Id) (name : String),
      (applyOp s (.setProjectName pid name)).manager.projects.map Project.id =
        s.manager.projects.map Project.id) ∧
    (∀ (s : AppState) (pid g : Id) (title dsc : String) (due : Option DateVal)
      (prio : String),
      (applyOp s (.createTodo pid g title dsc due prio)).manager.projects.map Project.id =
        s.manager.projects.map Project.id) ∧
    (∀ (s : AppState) (pid tid : Id),
      (applyOp s (.deleteTodo pid tid)).manager.projects.map Project.id =
        s.manager.projects.map Project.id) ∧
    (∀ (s : AppState) (pid tid : Id) (patch : UpdatePatch),
      (applyOp s (.updateTodo pid tid patch)).manager.projects.map Project.id =
        s.manager.projects.map Project.id) ∧
    (∀ (s : AppState) (pid tid : Id),
      (applyOp s (.toggleCompleted pid tid)).manager.projects.map Project.id =
        s.manager.projects.map Project.id) ∧
    (∀ (s : AppState) (pid tid : Id),
      (applyOp s (.toggleExpanded pid tid)).manager.projects.map Project.id =
        s.manager.projects.map Project.id) := by
  refine ⟨fun g p => rfl, fun data => ?_, fun s g name => ?_, fun s pid => ?_,
    fun s => rfl, fun s pid => rfl, fun s pid => rfl, fun s => rfl,
    fun s pid name => ?_, fun s pid g title dsc due prio => ?_,
    fun s pid tid => ?_, fun s pid tid patch => ?_, fun s pid tid => ?_,
    fun s pid tid => ?_⟩
  · simp [loadData, List.map_map, Function.comp_def, project_restore_eq]
  · simp [applyOp, ProjectManager.createProject, Project.make]
  · exact map_id_filter s.manager.projects pid
  · exact updateFirst_map (fun p => rfl)
  · exact updateFirst_map (fun p => rfl)
  · exact updateFirst_map (fun p => rfl)
  · exact updateFirst_map (fun p => rfl)
  · exact updateFirst_map (fun p => rfl)
  · exact updateFirst_map (fun p => rfl)

/-- C8: updateData(patch) changes exactly the fields among title, description,
dueDate, priority that are present (not undefined) in the patch and leaves the
absent fields (and id/completed/expanded) untouched; an explicit null dueDate
clears it, an explicit empty description is stored, and a supplied title is
still coerced to non-empty. -/
theorem C8_updateData_partial (t : Todo) (p : UpdatePatch) :
    ((t.updateData p).title = match p.title with
      | none => t.title
      | some v => coerceTitle v) ∧
    ((t.updateData p).description = match p.description with
      | none => t.description
      | some v => v) ∧
    ((t.updateData p).dueDate = match p.dueDate with
      | none => t.dueDate
      | some v => v) ∧
    ((t.updateData p).priority = match p.priority with
      | none => t.priority
      | some v => v) ∧
    (t.updateData p).id = t.id ∧
    (t.updateData p).completed = t.completed ∧
    (t.updateData p).expanded = t.expanded := by
  obtain ⟨pt, pd, pdd, pp⟩ := p
  cases pt <;> cases pd <;> cases pdd <;> cases pp <;>
    simp [Todo.updateData, Todo.setTitle, Todo.setDescription, Todo.setDueDate,
      Todo.setPriority, toDateOrNull_eq]

/-- C4: deleteProjectById(id) removes the project with that id (and only those
with that id) from the collection; the active role is reassigned to the new
first project or null exactly when the active project had that id, and the
default role likewise, each depending only on its own previous value. -/
theorem C4_deleteProjectById (m : ProjectManager) (pid : Id) :
    ((m.deleteProjectById pid).getProjectById pid = none) ∧
    ((m.deleteProjectById pid).projects = m.projects.filter (fun p => p.id != pid)) ∧
    ((m.deleteProjectById pid).activeProject =
      if optIdEq m.activeProject pid then (m.deleteProjectById pid).projects.head?
      else m.activeProject) ∧
    ((m.deleteProjectById pid).defaultProject =
      if optIdEq m.defaultProject pid then (m.deleteProjectById pid).projects.head?
      else m.defaultProject) :=
  ⟨find?_filter_ne m.projects pid, rfl, rfl, rfl⟩

/-- C6: setDefaultProject(id) toggles — if the current default's id equals the
given id, default becomes null, otherwise the found project or null; calling it
twice with the current default's id restores the default (set, null, set), while
a single such call is not idempotent. -/
theorem C6_setDefault_toggle (m : ProjectManager) (pid : Id) :
    ((m.setDefaultProject pid).defaultProject =
      if optIdEq m.defaultProject pid then none else m.getProjectById pid) ∧
    (∀ p : Project, m.defaultProject = some p → m.getProjectById p.id = some p →
      ((m.setDefaultProject p.id).setDefaultProject p.id).defaultProject = m.defaultProject ∧
      (m.setDefaultProject p.id).defaultProject ≠ m.defaultProject) := by
  refine ⟨rfl, fun p hd hg => ?_⟩
  have h1 : (m.setDefaultProject p.id).defaultProject = none := by
    simp [ProjectManager.setDefaultProject, hd, optIdEq]
  have hproj : (m.setDefaultProject p.id).projects = m.projects := rfl
  constructor
  · show (if optIdEq (m.setDefaultProject p.id).defaultProject p.id then none
      else (m.setDefaultProject p.id).getProjectById p.id) = m.defaultProject
    rw [h1, hd]
    simpa [optIdEq, ProjectManager.getProjectById, hproj] using hg
  · rw [h1, hd]
    exact fun h => Option.noConfusion h

/-- Concrete project used by the C6 witness. -/
def projC6 : Project :=
  { id := 3, name := "Chores", todos := [] }

/-- Concrete manager used by the C6 witness. -/
def mgrC6 : ProjectManager :=
  { projects := [projC6], activeProject := some projC6, defaultProject := some projC6 }

/-- Witness for C6: at a concrete manager whose default project has id 3, the
double toggle restores the default and the single call changes it. -/
theorem C6_setDefault_toggle_witness :
    mgrC6.defaultProject = some projC6 ∧
    mgrC6.getProjectById projC6.id = some projC6 ∧
    ((mgrC6.setDefaultProject projC6.id).setDefaultProject projC6.id).defaultProject =
      mgrC6.defaultProject ∧
    (mgrC6.setDefaultProject projC6.id).defaultProject ≠ mgrC6.defaultProject := by
  refine ⟨rfl, by decide, ?_, ?_⟩
  · exact ((C6_setDefault_toggle mgrC6 projC6.id).2 projC6 rfl (by decide)).1
  · exact ((C6_setDefault_toggle mgrC6 projC6.id).2 projC6 rfl (by decide)).2

/-- Fold of further createProject calls with their generated ids. -/
def createMany (m : ProjectManager) (l : List (Id × String)) : ProjectManager :=
  l.foldl (fun m gn => (m.createProject gn.1 gn.2).1) m

lemma createMany_roles {p q : Project} (l : List (Id × String)) :
    ∀ {m : ProjectManager}, m.activeProject = some p → m.defaultProject = some q →
      (createMany m l).activeProject = some p ∧ (createMany m l).defaultProject = some q := by
  induction l with
  | nil => exact fun ha hd => ⟨ha, hd⟩
  | cons gn rest ih =>
    intro m ha hd
    exact ih (by simp [createMany, ProjectManager.createProject, ha])
      (by simp [createMany, ProjectManager.createProject, hd])

/-- C5: after the very first createProject on a fresh manager, getActiveProject
and getDefaultProject both return that project, and any sequence of subsequent
createProject calls changes neither role. -/
theorem C5_first_create (g : Id) (name : String) (rest : List (Id × String)) :
    ((emptyManager.createProject g name).1.getActiveProject =
      some (emptyManager.createProject g name).2) ∧
    ((emptyManager.createProject g name).1.getDefaultProject =
      some (emptyManager.createProject g name).2) ∧
    ((createMany (emptyManager.createProject g name).1 rest).activeProject =
      some (emptyManager.createProject g name).2) ∧
    ((createMany (emptyManager.createProject g name).1 rest).defaultProject =
      some (emptyManager.createProject g name).2) := by
  have h := createMany_roles (p := (emptyManager.createProject g name).2)
    (q := (emptyManager.createProject g name).2) rest
    (m := (emptyManager.createProject g name).1) rfl rfl
  exact ⟨rfl, rfl, h.1, h.2⟩

/-- Concrete todo used by C7. -/
def todoC7 : Todo :=
  Todo.create 5 "Report" "write it" (none) "Urgent"

/-- C7 counterexample: assigning through the info bulk setter with an explicitly
empty title stores the empty string verbatim — the update leaves the title empty,
contrary to the claimed coercion at every write. -/
theorem C7_cx_info_empty_title :
    (todoC7.setInfo { title := some "" }).title = "" := rfl

/-- C7 amended: the title is non-blank (hence non-empty) after construction and
after the title setter, blank input to the setter is coerced to the placeholder,
and updateData preserves non-blankness; the info bulk setter is the exception —
it assigns the supplied title without any coercion. -/
theorem C7_title_invariant :
    (∀ g ti d dd pr, isBlank (Todo.create g ti d dd pr).title = false ∧
      (Todo.create g ti d dd pr).title ≠ "") ∧
    (∀ (t : Todo) (v : String), isBlank (t.setTitle v).title = false ∧
      (t.setTitle v).title ≠ "") ∧
    (∀ (t : Todo) (v : String), isBlank v = true → (t.setTitle v).title = "Untitled Todo") ∧
    (∀ (t : Todo) (p : UpdatePatch), isBlank t.title = false →
      isBlank (t.updateData p).title = false) ∧
    (∀ (t : Todo) (v : String), (t.setInfo { title := some v }).title = v) := by
  refine ⟨fun g ti d dd pr => ?_, fun t v => ?_, fun t v h => ?_, fun t p h => ?_, fun t v => rfl⟩
  · exact ⟨isBlank_coerceTitle ti, ne_empty_of_not_blank (isBlank_coerceTitle ti)⟩
  · exact ⟨isBlank_coerceTitle v, ne_empty_of_not_blank (isBlank_coerceTitle v)⟩
  · simp [Todo.setTitle, coerceTitle, h]
  · obtain ⟨pt, pd, pdd, pp⟩ := p
    cases pt <;> cases pd <;> cases pdd <;> cases pp <;>
      simp [Todo.updateData, Todo.setTitle, Todo.setDescription, Todo.setDueDate,
        Todo.setPriority, isBlank_coerceTitle, h]

/-- Witness for C7 amended: the coercion and preservation clauses at concrete inputs. -/
theorem C7_title_invariant_witness :
    isBlank ("   ") = true ∧
    (todoC7.setTitle ("   ")).title = "Untitled Todo" ∧
    isBlank todoC7.title = false ∧
    isBlank (todoC7.updateData { dueDate := some (none) }).title = false := by
  refine ⟨by decide, ?_, by decide, ?_⟩
  · exact C7_title_invariant.2.2.1 todoC7 ("   ") (by decide)
  · exact C7_title_invariant.2.2.2.1 todoC7 { dueDate := some (none) } (by decide)

/-- Persisted record used by the C3 counterexample: its title is empty. -/
def recC3 : TodoRecord :=
  { id := 9, title := "", description := "desc", dueDate := some 4, priority := "Low",
    completed := true, expanded := true }

/-- C3 counterexample: a persisted todo whose title is the empty string is not
restored verbatim — rebuilding it through the project factory re-applies the
blank-title coercion, so the loaded title differs from the persisted one. -/
theorem C3_cx_title_not_restored :
    (Todo.restore 0 recC3).title ≠ recC3.title := by decide

/-- C3 amended: during load each todo is created through the owning project's
factory with the persisted title, description, dueDate and priority as
constructor arguments (the title therefore passes through the blank coercion),
and only id, completed and expanded are force-restored afterwards, overwriting
the factory-generated id and the default flags; projects are rebuilt in order
the same way. -/
theorem C3_restore_characterization :
    (∀ g t, Todo.restore g t =
      { id := t.id, title := coerceTitle t.title, description := t.description,
        dueDate := t.dueDate, priority := t.priority, completed := t.completed,
        expanded := t.expanded }) ∧
    (∀ g p, Project.restore g p =
      { id := p.id, name := coerceName p.name, todos := p.todos.map (Todo.restore g) }) ∧
    (∀ data, (loadData data).projects = data.projects.map (Project.restore 0)) := by
  refine ⟨fun g t => ?_, fun g p => rfl, fun data => rfl⟩
  simp [Todo.restore, Todo.create, toDateOrNull_eq]

end TodoApp
